import Mathlib

/-!
Verification of the CovidBloc Hyperledger Fabric chaincode
(backend/chaincode/src/asset-contract.ts) against its natural-language
specification.

The chaincode manipulates JSON-serialized records stored in the Fabric
world state under string keys.  We model the world state as an
association list from keys to stored values, and JavaScript/JSON values
by the inductive type JSVal.  Property access on a missing field yields
undefined, exactly as in JavaScript; this is load-bearing, because the
contract reads fields (approvalCtr in validatePatient, num_positives in
getKeys) that its own writers never set, and assigns a field
(approveCtr in addPatientApprovalRecord) that it never persists.

JSON.parse and JSON.stringify are inverse on the values the contract
stores, so we store JSVal values directly rather than strings.
-/

namespace CovidBloc

/-- JavaScript/JSON values as manipulated by the chaincode. -/
inductive JSVal where
  | undefined : JSVal
  | null : JSVal
  | nan : JSVal
  | num : Int → JSVal
  | str : String → JSVal
  | arr : List JSVal → JSVal
  | obj : List (String × JSVal) → JSVal
deriving Repr

/-- Association-list lookup (first binding wins); used both for object
fields and for the world state. -/
def alGet : List (String × JSVal) → String → Option JSVal
  | [], _ => none
  | (k, v) :: rest, key => if key = k then some v else alGet rest key

/-- Association-list write: update the binding in place if the key is
present, append it otherwise (JavaScript property-assignment order). -/
def alPut : List (String × JSVal) → String → JSVal → List (String × JSVal)
  | [], key, v => [(key, v)]
  | (k, w) :: rest, key, v =>
      if key = k then (key, v) :: rest else (k, w) :: alPut rest key v

/-- JavaScript property read: a missing field, or a read on a
non-object, yields undefined. -/
def JSVal.getField : JSVal → String → JSVal
  | .obj fs, key => (alGet fs key).getD .undefined
  | _, _ => .undefined

/-- JavaScript property write; assignment to a property of a primitive
is silently dropped in non-strict mode. -/
def JSVal.setField : JSVal → String → JSVal → JSVal
  | .obj fs, key, v => .obj (alPut fs key v)
  | o, _, _ => o

/-- JavaScript string coercion (String(v) / v.toString()).  Only
strings and integral numbers are ever coerced by the contract (keys are
built from medID strings and counter numbers), so those branches are
exact.  Array coercion (join the recursively coerced elements with
commas) is modelled only for the arrays it is exact on — the empty and
the all-null/undefined ones — because no contract operation ever
string-coerces an array. -/
def jsToString : JSVal → String
  | .undefined => "undefined"
  | .null => "null"
  | .nan => "NaN"
  | .num n => n.repr
  | .str s => s
  | .arr _ => ""
  | .obj _ => "[object Object]"

/-- ToPrimitive for the + operator: arrays and objects coerce to their
string form, primitives are unchanged. -/
def jsPrim : JSVal → JSVal
  | .arr xs => .str (jsToString (.arr xs))
  | .obj fs => .str (jsToString (.obj fs))
  | x => x

/-- ToNumber on non-string primitives: null is 0, undefined is NaN.
(String-to-number coercion never occurs in the contract because + with
a string operand concatenates.) -/
def jsToNum : JSVal → JSVal
  | .num n => .num n
  | .null => .num 0
  | _ => .nan

/-- JavaScript +: string concatenation when either primitive-coerced
operand is a string, numeric addition otherwise. -/
def jsAdd (a b : JSVal) : JSVal :=
  match jsPrim a, jsPrim b with
  | .str x, y => .str (x ++ jsToString y)
  | x, .str y => .str (jsToString x ++ y)
  | x, y =>
      match jsToNum x, jsToNum y with
      | .num m, .num n => .num (m + n)
      | _, _ => .nan

/-- JavaScript loose equality, on the value shapes the contract
compares: records against null (where undefined == null holds), and
identifier strings / numbers against each other.  Number-string
coercion and object reference equality never arise in the contract and
are modelled as false. -/
def jsEq : JSVal → JSVal → Bool
  | .null, .null => true
  | .null, .undefined => true
  | .undefined, .null => true
  | .undefined, .undefined => true
  | .num a, .num b => a == b
  | .str a, .str b => a == b
  | _, _ => false

/-- Iteration count of a JavaScript counting loop over 1..bound (or
bound..1): relational comparison against undefined or NaN is false, so
a non-numeric bound gives zero iterations; a numeric bound gives
max bound 0 iterations. -/
def jsLoopCount : JSVal → Nat
  | .num c => c.toNat
  | _ => 0

/-- The errors the contract can throw, by construction site:
alreadyExists and doesNotExist are thrown by the storage primitives,
invalidApprovalID and invalidMedicalID by validatePatient. -/
inductive CCError where
  | alreadyExists : String → CCError
  | doesNotExist : String → CCError
  | invalidApprovalID : String → CCError
  | invalidMedicalID : String → CCError
deriving Repr, DecidableEq

/-- The Fabric world state: keys to stored (JSON) values. -/
def Store := List (String × JSVal)

/-- getState, restricted to presence: a key is present iff a non-empty
buffer is stored (every stored value is a non-empty JSON string). -/
def wsGet (s : Store) (key : String) : Option JSVal := alGet s key

/-- putState. -/
def wsPut (s : Store) (key : String) (v : JSVal) : Store := alPut s key v

/-- AssetContract.assetExists: true iff a non-empty value is stored. -/
def assetExists (s : Store) (assetId : String) : Bool :=
  (wsGet s assetId).isSome

/-- AssetContract.createAsset: throws if the asset exists, else writes. -/
def createAsset (s : Store) (assetId : String) (value : JSVal) :
    Except CCError Store :=
  if assetExists s assetId then .error (.alreadyExists assetId)
  else .ok (wsPut s assetId value)

/-- AssetContract.readAsset: throws if the asset does not exist, else
returns the parsed stored value. -/
def readAsset (s : Store) (assetId : String) : Except CCError JSVal :=
  match wsGet s assetId with
  | some v => .ok v
  | none => .error (.doesNotExist assetId)

/-- AssetContract.updateAsset: throws if the asset does not exist, else
overwrites it. -/
def updateAsset (s : Store) (assetId : String) (newValue : JSVal) :
    Except CCError Store :=
  if assetExists s assetId then .ok (wsPut s assetId newValue)
  else .error (.doesNotExist assetId)

/-- AssetContract.deleteAsset: throws if the asset does not exist, else
removes it. -/
def deleteAsset (s : Store) (assetId : String) : Except CCError Store :=
  if assetExists s assetId then
    .ok (s.filter (fun p => !(p.1 == assetId)))
  else .error (.doesNotExist assetId)

/-- AssetContract.addHealthOfficer (register officer): if an asset
already exists at the key medObj.medID this is a no-op, otherwise the
submitted officer object is stored verbatim at that key.  Note the key
is the raw medID value, with no "m" prefix added here. -/
def addHealthOfficer (s : Store) (medObj : JSVal) : Except CCError Store :=
  if assetExists s (jsToString (JSVal.getField medObj ("medID"))) then .ok s
  else createAsset s (jsToString (JSVal.getField medObj ("medID"))) medObj

/-- AssetContract.addPatientApprovalRecord (issue approval token):
returns gracefully if no asset exists at key medID; otherwise reads the
officer, computes apNum = official.approveCtr + 1, assigns the new
counter to the in-memory officer object (the source never writes the
officer back, so the assignment is dead), and creates a fresh Approval
at key "m" + medID + ":" + apNum with patientID null. -/
def addPatientApprovalRecord (s : Store) (medID : String)
    (newApprovalID : String) : Except CCError Store :=
  if !(assetExists s medID) then .ok s
  else
    match readAsset s medID with
    | .error e => .error e
    | .ok official =>
        let apNum := jsAdd (JSVal.getField official ("approveCtr")) (.num 1)
        let _officialUpdated := JSVal.setField official ("approveCtr") apNum
        let key := "m" ++ medID ++ ":" ++ jsToString apNum
        let apObj : JSVal :=
          .obj [(("approvalID"), .str newApprovalID), (("patientID"), .null)]
        createAsset s key apObj

/-- The body of the descending redemption loop of
AssetContract.addPatient.  The source iterates apNum from
healthOfficial.approveCtr down to 1; we recurse on the current value of
apNum (a strictly positive integer whenever an iteration runs, so
Nat.repr agrees with the source's Number.prototype.toString).  On fuel
k+1 the current approval number is k+1.  On a match the three writes of
the source are performed and the loop breaks; if the loop counts down
to 0 the function returns with the store untouched. -/
def redeemScan (s : Store) (patientObj : JSVal) (newPKey : String)
    (currMeta : JSVal) (newCtr : JSVal) : Nat → Except CCError Store
  | 0 => .ok s
  | k + 1 =>
      let apKey := "m" ++ jsToString (JSVal.getField patientObj ("medID"))
        ++ ":" ++ Nat.repr (k + 1)
      match readAsset s apKey with
      | .error e => .error e
      | .ok apObj =>
          if jsEq (JSVal.getField apObj ("patientID")) .null
              && jsEq (JSVal.getField apObj ("approvalID"))
                  (JSVal.getField patientObj ("approvalID")) then
            match updateAsset s apKey
                (JSVal.setField apObj ("patientID") (.str newPKey)) with
            | .error e => .error e
            | .ok s1 =>
                match createAsset s1 newPKey patientObj with
                | .error e => .error e
                | .ok s2 =>
                    updateAsset s2 ("meta")
                      (JSVal.setField currMeta ("patientCtr") newCtr)
          else
            redeemScan s patientObj newPKey currMeta newCtr k

/-- AssetContract.addPatient (redeem approval): reads Meta, derives the
next patient key "p" + (patientCtr + 1), reads the officer record at
the raw key patientObj.medID, and scans approvals from approveCtr down
to 1 via redeemScan. -/
def addPatient (s : Store) (patientObj : JSVal) : Except CCError Store :=
  match readAsset s ("meta") with
  | .error e => .error e
  | .ok currMeta =>
      let lastPatientID := JSVal.getField currMeta ("patientCtr")
      let newCtr := jsAdd lastPatientID (.num 1)
      let newPKey := "p" ++ jsToString newCtr
      match readAsset s (jsToString (JSVal.getField patientObj ("medID"))) with
      | .error e => .error e
      | .ok healthOfficial =>
          redeemScan s patientObj newPKey currMeta newCtr
            (jsLoopCount (JSVal.getField healthOfficial ("approveCtr")))

/-- AssetContract.getMedProfile (fetch officer profile): reads the
officer record at key "m" + medID; returns it when it is not loosely
equal to null, and null otherwise.  (The source also consults the
caller's ClientIdentity but, per the commented-out check, does not
enforce it; the operation performs no writes, which the return type
makes structural.) -/
def getMedProfile (s : Store) (medID : String) : Except CCError JSVal :=
  match readAsset s ("m" ++ medID) with
  | .error e => .error e
  | .ok medObj => if !(jsEq medObj .null) then .ok medObj else .ok .null

/-- The ascending scan of AssetContract.validatePatient: i runs from 1
while i <= medObj.approvalCtr; the fuel is the number of remaining
iterations and i the current index. -/
def validateScan (s : Store) (medKey checkID : String) :
    Nat → Nat → Except CCError String
  | _, 0 => .error (.invalidApprovalID checkID)
  | i, rem + 1 =>
      match readAsset s (medKey ++ ":" ++ Nat.repr i) with
      | .error e => .error e
      | .ok approvalObj =>
          if !(jsEq approvalObj .null)
              && jsEq (JSVal.getField approvalObj ("approvalID")) (.str checkID)
              && jsEq (JSVal.getField approvalObj ("patientID")) .null then
            .ok ("Validate Patient Successful")
          else
            validateScan s medKey checkID (i + 1) rem

/-- AssetContract.validatePatient (validate token): reads the officer
record at key "m" + medID (readAsset throws when it is absent, so the
else-branch throwing invalidMedicalID is reachable only for a stored
literal null); then scans i = 1 .. medObj.approvalCtr.  The stored
officer records carry the field approveCtr, not approvalCtr, so the
field read yields undefined and the loop bound is zero. -/
def validatePatient (s : Store) (medID checkID : String) :
    Except CCError String :=
  match readAsset s ("m" ++ medID) with
  | .error e => .error e
  | .ok medObj =>
      if !(jsEq medObj .null) then
        validateScan s ("m" ++ medID) checkID 1
          (jsLoopCount (JSVal.getField medObj ("approvalCtr")))
      else .error (.invalidMedicalID medID)

/-- The ascending scan of AssetContract.getKeys: for each patient
number i it reads the record at key "p" + i and pushes its dailyKeys
field onto the result list. -/
def getKeysScan (s : Store) : Nat → Nat → Except CCError (List JSVal)
  | _, 0 => .ok []
  | i, rem + 1 =>
      match readAsset s ("p" ++ Nat.repr i) with
      | .error e => .error e
      | .ok patientObj =>
          match getKeysScan s (i + 1) rem with
          | .error e => .error e
          | .ok rest =>
              if !(jsEq patientObj .null) then
                .ok (JSVal.getField patientObj ("dailyKeys") :: rest)
              else .ok rest

/-- AssetContract.getKeys (aggregate keys): reads Meta and loops
i = 1 .. metaObj.num_positives.  The Meta record's counter field is
patientCtr (that is what addPatient reads and writes), so the field
read yields undefined and the loop runs zero times.  The source
returns JSON.stringify of the accumulated array; we return the array
itself, whose serialization is the returned string. -/
def getKeys (s : Store) : Except CCError (List JSVal) :=
  match readAsset s ("meta") with
  | .error e => .error e
  | .ok metaObj =>
      getKeysScan s 1 (jsLoopCount (JSVal.getField metaObj ("num_positives")))

/-! ### Association-list and store lemmas -/

theorem alGet_put_same (fs : List (String × JSVal)) (k : String) (v : JSVal) :
    alGet (alPut fs k v) k = some v := by
  induction fs with
  | nil => simp [alPut, alGet]
  | cons p rest ih =>
      by_cases h : k = p.1
      · simp [alPut, h, alGet]
      · simp [alPut, h, alGet, ih]

theorem alGet_put_other (fs : List (String × JSVal)) (k k' : String)
    (v : JSVal) (h : k' ≠ k) : alGet (alPut fs k v) k' = alGet fs k' := by
  induction fs with
  | nil => simp [alPut, alGet, h]
  | cons p rest ih =>
      by_cases hk : k = p.1
      · subst hk
        simp [alPut, alGet, h]
      · simp only [alPut, if_neg hk, alGet]
        by_cases hk' : k' = p.1
        · simp [hk']
        · simp [hk', ih]

theorem wsGet_put_same (s : Store) (k : String) (v : JSVal) :
    wsGet (wsPut s k v) k = some v := alGet_put_same s k v

theorem wsGet_put_other (s : Store) (k k' : String) (v : JSVal)
    (h : k' ≠ k) : wsGet (wsPut s k v) k' = wsGet s k' :=
  alGet_put_other s k k' v h

/-! ### Decimal representations of naturals are injective

Needed to tell distinct approval keys "m" + medID + ":" + apNum apart.
We relate Nat.repr to a fuel-free digit-list function and prove that
function injective. -/

/-- Fuel-free reformulation of Nat.toDigits at base 10. -/
def natChars (n : Nat) : List Char :=
  if h : n < 10 then [Nat.digitChar n]
  else natChars (n / 10) ++ [Nat.digitChar (n % 10)]
termination_by n
decreasing_by
  exact Nat.div_lt_self (by omega) (by omega)

theorem natChars_lt {n : Nat} (h : n < 10) :
    natChars n = [Nat.digitChar n] := by
  rw [natChars]
  simp [h]

theorem natChars_ge {n : Nat} (h : ¬ n < 10) :
    natChars n = natChars (n / 10) ++ [Nat.digitChar (n % 10)] := by
  rw [natChars]
  simp [h]

theorem natChars_ne_nil (n : Nat) : natChars n ≠ [] := by
  by_cases h : n < 10
  · rw [natChars_lt h]
    simp
  · rw [natChars_ge h]
    simp

theorem toDigitsCore_eq_natChars :
    ∀ fuel n ds, n < fuel →
      Nat.toDigitsCore 10 fuel n ds = natChars n ++ ds := by
  intro fuel
  induction fuel with
  | zero => intro n ds h; omega
  | succ f ih =>
      intro n ds h
      simp only [Nat.toDigitsCore]
      by_cases h10 : n / 10 = 0
      · rw [if_pos h10]
        have hn : n < 10 := by omega
        rw [natChars_lt hn, Nat.mod_eq_of_lt hn]
        rfl
      · rw [if_neg h10]
        rw [ih (n / 10) _ (by omega)]
        rw [natChars_ge (show ¬ n < 10 by omega)]
        simp

theorem toDigits_eq_natChars (n : Nat) : Nat.toDigits 10 n = natChars n := by
  rw [Nat.toDigits, toDigitsCore_eq_natChars (n + 1) n [] (by omega)]
  simp

theorem digitChar_inj_lt :
    ∀ a : Nat, a < 10 → ∀ b : Nat, b < 10 →
      Nat.digitChar a = Nat.digitChar b → a = b := by decide

theorem natChars_inj (n : Nat) : ∀ m : Nat, natChars n = natChars m → n = m := by
  induction n using Nat.strong_induction_on with
  | _ n ih =>
      intro m h
      by_cases hn : n < 10 <;> by_cases hm : m < 10
      · rw [natChars_lt hn, natChars_lt hm] at h
        simp only [List.cons.injEq] at h
        exact digitChar_inj_lt n hn m hm h.1
      · rw [natChars_lt hn, natChars_ge hm] at h
        have := congrArg List.length h
        simp at this
        exact absurd this (natChars_ne_nil _)
      · rw [natChars_ge hn, natChars_lt hm] at h
        have := congrArg List.length h
        simp at this
        exact absurd this (natChars_ne_nil _)
      · rw [natChars_ge hn, natChars_ge hm] at h
        have hrev := congrArg List.reverse h
        simp only [List.reverse_append, List.reverse_cons, List.reverse_nil,
          List.nil_append, List.singleton_append, List.cons.injEq] at hrev
        have hmod : n % 10 = m % 10 :=
          digitChar_inj_lt _ (Nat.mod_lt _ (by omega)) _ (Nat.mod_lt _ (by omega))
            hrev.1
        have hdiv : n / 10 = m / 10 :=
          ih (n / 10) (Nat.div_lt_self (by omega) (by omega)) (m / 10)
            (List.reverse_injective hrev.2)
        omega

theorem natRepr_data_inj {n m : Nat}
    (h : (Nat.repr n).data = (Nat.repr m).data) : n = m := by
  simp only [Nat.repr, List.asString, toDigits_eq_natChars] at h
  exact natChars_inj n m h

theorem natRepr_inj {n m : Nat} (h : Nat.repr n = Nat.repr m) : n = m :=
  natRepr_data_inj (congrArg String.data h)

/-! ### Distinctness of the asset keys the contract composes -/

theorem string_data_append (a b : String) :
    (a ++ b).data = a.data ++ b.data := by
  cases a
  cases b
  rfl

theorem pKey_ne_apKey (x y r : String) :
    ("p" ++ x) ≠ ("m" ++ y ++ ":" ++ r) := by
  intro h
  have hd := congrArg String.data h
  simp only [string_data_append] at hd
  simp only [show ("p" : String).data = ['p'] from rfl,
    show ("m" : String).data = ['m'] from rfl,
    show (":" : String).data = [':'] from rfl,
    List.cons_append, List.nil_append, List.append_assoc,
    List.cons.injEq] at hd
  exact absurd hd.1 (by decide)

theorem pKey_ne_meta (x : String) : ("p" ++ x) ≠ ("meta" : String) := by
  intro h
  have hd := congrArg String.data h
  simp only [string_data_append] at hd
  simp only [show ("p" : String).data = ['p'] from rfl,
    show ("meta" : String).data = ['m', 'e', 't', 'a'] from rfl,
    List.cons_append, List.nil_append, List.cons.injEq] at hd
  exact absurd hd.1 (by decide)

theorem meta_ne_apKey (y r : String) :
    ("meta" : String) ≠ ("m" ++ y ++ ":" ++ r) := by
  intro h
  have hd := congrArg String.data h
  simp only [string_data_append] at hd
  simp only [show ("m" : String).data = ['m'] from rfl,
    show (":" : String).data = [':'] from rfl,
    show ("meta" : String).data = ['m', 'e', 't', 'a'] from rfl,
    List.cons_append, List.nil_append, List.append_assoc,
    List.cons.injEq] at hd
  have hmem : ':' ∈ y.data ++ ':' :: r.data :=
    List.mem_append_right _ (List.mem_cons_self _ _)
  rw [← hd.2] at hmem
  simp at hmem

theorem officer_ne_apKey (x r : String) : ("m" ++ x ++ ":" ++ r) ≠ x := by
  intro h
  have hd := congrArg List.length (congrArg String.data h)
  simp only [string_data_append, List.length_append] at hd
  simp only [show ("m" : String).data.length = 1 from rfl,
    show (":" : String).data.length = 1 from rfl] at hd
  omega

theorem apKey_inj {y : String} {j k : Nat}
    (h : ("m" ++ y ++ ":" ++ Nat.repr j) = ("m" ++ y ++ ":" ++ Nat.repr k)) :
    j = k := by
  have hd := congrArg String.data h
  simp only [string_data_append, List.append_assoc] at hd
  exact natRepr_data_inj (List.append_cancel_left
    (List.append_cancel_left (List.append_cancel_left hd)))

/-! ### Characterizing the redemption scan -/

/-- The approval key the contract derives for officer medID and
approval number k. -/
def apKey (medID : String) (k : Nat) : String :=
  "m" ++ medID ++ ":" ++ Nat.repr k

/-- The match test of the redemption loop: the stored approval is
unredeemed and carries the submitted token. -/
def approvalMatches (patientObj ap : JSVal) : Bool :=
  jsEq (JSVal.getField ap ("patientID")) .null
    && jsEq (JSVal.getField ap ("approvalID"))
        (JSVal.getField patientObj ("approvalID"))

/-- Whether the approval stored at number k matches the submission
(false when no approval is stored there). -/
def matchesAt (s : Store) (patientObj : JSVal) (medID : String)
    (k : Nat) : Bool :=
  match wsGet s (apKey medID k) with
  | some v => approvalMatches patientObj v
  | none => false

/-- The approval number the descending scan stops at: the largest
matching number in 1..N, if any. -/
def scanMatch (s : Store) (patientObj : JSVal) (medID : String) :
    Nat → Option Nat
  | 0 => none
  | k + 1 =>
      if matchesAt s patientObj medID (k + 1) then some (k + 1)
      else scanMatch s patientObj medID k

theorem scanMatch_some {s : Store} {patientObj : JSVal} {medID : String} :
    ∀ {N j : Nat}, scanMatch s patientObj medID N = some j →
      1 ≤ j ∧ j ≤ N ∧ matchesAt s patientObj medID j = true ∧
        ∀ k, j < k → k ≤ N → matchesAt s patientObj medID k = false := by
  intro N
  induction N with
  | zero => intro j h; simp [scanMatch] at h
  | succ n ih =>
      intro j h
      by_cases hm : matchesAt s patientObj medID (n + 1) = true
      · rw [scanMatch, if_pos hm] at h
        obtain rfl : n + 1 = j := Option.some.inj h
        exact ⟨by omega, by omega, hm, fun k hk hk' => by omega⟩
      · rw [scanMatch, if_neg hm] at h
        obtain ⟨h1, h2, h3, h4⟩ := ih h
        refine ⟨h1, by omega, h3, fun k hk hk' => ?_⟩
        by_cases hkn : k = n + 1
        · subst hkn
          exact Bool.not_eq_true _ ▸ (by simpa using hm)
        · exact h4 k hk (by omega)

theorem getField_setField_obj (fs : List (String × JSVal)) (k : String)
    (v : JSVal) :
    JSVal.getField (JSVal.setField (.obj fs) k v) k = v := by
  simp [JSVal.setField, JSVal.getField, alGet_put_same]

/-- The store produced by a successful redemption that hits approval
number j holding apObjJ: the approval gains the new patient key, the
patient record is created, and Meta is overwritten with the bumped
counter. -/
def redeemResult (s : Store) (medID : String) (j : Nat)
    (apObjJ patientObj : JSVal) (newPKey : String)
    (currMeta newCtr : JSVal) : Store :=
  wsPut
    (wsPut
      (wsPut s (apKey medID j)
        (JSVal.setField apObjJ ("patientID") (.str newPKey)))
      newPKey patientObj)
    ("meta") (JSVal.setField currMeta ("patientCtr") newCtr)

theorem redeemScan_match (currMeta newCtr : JSVal) {s : Store}
    {patientObj : JSVal} {medID newPKey : String}
    (hmed : JSVal.getField patientObj ("medID") = .str medID)
    (hpk : ∀ k, newPKey ≠ apKey medID k)
    (hpm : newPKey ≠ ("meta" : String))
    (hmeta : (wsGet s ("meta")).isSome = true) :
    ∀ {N j : Nat} {apObjJ : JSVal},
      (∀ k, k < N → (wsGet s (apKey medID (k + 1))).isSome = true) →
      scanMatch s patientObj medID N = some j →
      wsGet s (apKey medID j) = some apObjJ →
      wsGet s newPKey = none →
      redeemScan s patientObj newPKey currMeta newCtr N =
        .ok (redeemResult s medID j apObjJ patientObj newPKey currMeta
          newCtr) := by
  intro N
  induction N with
  | zero => intro j apObjJ dens hj hlj hfree; simp [scanMatch] at hj
  | succ n ih =>
      intro j apObjJ dens hj hlj hfree
      obtain ⟨v, hv⟩ := Option.isSome_iff_exists.mp (dens n (by omega))
      have hv' := hv
      simp only [apKey] at hv'
      have hmAt : matchesAt s patientObj medID (n + 1) =
          approvalMatches patientObj v := by
        simp [matchesAt, hv]
      by_cases hm : approvalMatches patientObj v = true
      · have hj' : j = n + 1 := by
          rw [scanMatch, if_pos (hmAt ▸ hm)] at hj
          exact (Option.some.inj hj).symm
        subst hj'
        have hva : v = apObjJ := by
          rw [hv] at hlj
          exact Option.some.inj hlj
        subst hva
        have hcond := hm
        simp only [approvalMatches, Bool.and_eq_true] at hcond
        have hpk' := hpk (n + 1)
        simp only [apKey] at hpk'
        have hgmeta : wsGet
            (wsPut (wsPut s ("m" ++ medID ++ ":" ++ Nat.repr (n + 1))
              (JSVal.setField v ("patientID") (.str newPKey)))
              newPKey patientObj) ("meta") = wsGet s ("meta") := by
          rw [wsGet_put_other _ _ _ _ (Ne.symm hpm),
            wsGet_put_other _ _ _ _ (meta_ne_apKey medID (Nat.repr (n + 1)))]
        simp only [redeemScan, hmed, jsToString, readAsset, hv',
          updateAsset, createAsset, assetExists, Option.isSome_some,
          if_true, hcond.1, hcond.2, Bool.and_self]
        simp only [wsGet_put_other _ _ _ _ hpk', hfree,
          Option.isSome_none, Bool.false_eq_true, if_false,
          hgmeta, hmeta, if_true]
        rfl
      · have hmAt' : matchesAt s patientObj medID (n + 1) = false := by
          rw [hmAt]
          exact Bool.not_eq_true _ ▸ (by simpa using hm)
        have hj' : scanMatch s patientObj medID n = some j := by
          rw [scanMatch, if_neg (by simp [hmAt'])] at hj
          exact hj
        have hcond : approvalMatches patientObj v = false := by
          simpa using hm
        simp only [approvalMatches] at hcond
        have := ih (fun k hk => dens k (by omega)) hj' hlj hfree
        simp only [redeemScan, hmed, jsToString, readAsset, hv', hcond,
          Bool.false_eq_true, if_false]
        exact this

theorem jsAdd_num (a b : Int) : jsAdd (.num a) (.num b) = .num (a + b) := rfl

theorem jsToString_num (a : Int) : jsToString (.num a) = a.repr := by
  simp [jsToString]

/-- C1.  For every redeemApproval call where the officer record exists,
Meta exists, and at least one approval number in 1..approvalCounter
holds an unredeemed approval with the submitted token, the operation
scans approval numbers from approvalCounter down to 1 and, at the first
(highest-numbered, most recently issued) match j, sets that approval's
patientID (redeemedBy) to the new patient key "p"+(patientCtr+1),
creates the Patient record at that key with the submitted object,
overwrites Meta with patientCtr incremented by exactly 1, stops
scanning, and leaves every other key — in particular every
lower-numbered approval — unmodified.  The highest-match hypothesis is
phrased via scanMatch, whose characterization (conjuncts two to four)
says j matches and nothing above j in 1..approvalCounter does.
Density of approval numbers (a §3 data-model invariant) and freshness
of the minted patient key are the hypotheses dens and hfree. -/
theorem addPatient_redeems_most_recent
    (s : Store) (patientObj mval off apObjJ : JSVal)
    (medID : String) (n c : Int) (j : Nat)
    (mfs afs : List (String × JSVal))
    (hmed : JSVal.getField patientObj ("medID") = .str medID)
    (hmeta : wsGet s ("meta") = some mval)
    (hmv : mval = .obj mfs)
    (hn : JSVal.getField mval ("patientCtr") = .num n)
    (hoff : wsGet s medID = some off)
    (hc : JSVal.getField off ("approveCtr") = .num c)
    (dens : ∀ k, k < c.toNat → (wsGet s (apKey medID (k + 1))).isSome = true)
    (hj : scanMatch s patientObj medID c.toNat = some j)
    (hlj : wsGet s (apKey medID j) = some apObjJ)
    (hapj : apObjJ = .obj afs)
    (hfree : wsGet s ("p" ++ (n + 1).repr) = none) :
    ∀ sFin, sFin = redeemResult s medID j apObjJ patientObj
        ("p" ++ (n + 1).repr) mval (.num (n + 1)) →
      addPatient s patientObj = .ok sFin
      ∧ matchesAt s patientObj medID j = true
      ∧ 1 ≤ j ∧ j ≤ c.toNat
      ∧ (∀ k, j < k → k ≤ c.toNat → matchesAt s patientObj medID k = false)
      ∧ wsGet sFin (apKey medID j) = some (JSVal.setField apObjJ
          ("patientID") (.str ("p" ++ (n + 1).repr)))
      ∧ JSVal.getField (JSVal.setField apObjJ ("patientID")
          (.str ("p" ++ (n + 1).repr))) ("patientID") =
            .str ("p" ++ (n + 1).repr)
      ∧ wsGet sFin ("p" ++ (n + 1).repr) = some patientObj
      ∧ wsGet sFin ("meta") = some (JSVal.setField mval ("patientCtr")
          (.num (n + 1)))
      ∧ JSVal.getField (JSVal.setField mval ("patientCtr")
          (.num (n + 1))) ("patientCtr") = .num (n + 1)
      ∧ (∀ key, key ≠ apKey medID j → key ≠ "p" ++ (n + 1).repr →
          key ≠ ("meta" : String) → wsGet sFin key = wsGet s key)
      ∧ (∀ k, 1 ≤ k → k < j →
          wsGet sFin (apKey medID k) = wsGet s (apKey medID k)) := by
  intro sFin hsFin
  subst hsFin
  have hpk : ∀ k, ("p" ++ (n + 1).repr) ≠ apKey medID k :=
    fun k => pKey_ne_apKey ((n + 1).repr) medID (Nat.repr k)
  have hpm : ("p" ++ (n + 1).repr) ≠ ("meta" : String) :=
    pKey_ne_meta ((n + 1).repr)
  have hmetaS : (wsGet s ("meta")).isSome = true := by rw [hmeta]; rfl
  have hscan := redeemScan_match mval (.num (n + 1))
    hmed hpk hpm hmetaS dens hj hlj hfree
  obtain ⟨hj1, hjN, hjm, hjhi⟩ := scanMatch_some hj
  have hAM : apKey medID j ≠ ("meta" : String) :=
    Ne.symm (meta_ne_apKey medID (Nat.repr j))
  have hAP : apKey medID j ≠ ("p" ++ (n + 1).repr) := Ne.symm (hpk j)
  have hgeneric : ∀ key, key ≠ apKey medID j →
      key ≠ "p" ++ (n + 1).repr → key ≠ ("meta" : String) →
      wsGet (redeemResult s medID j apObjJ patientObj
        ("p" ++ (n + 1).repr) mval (.num (n + 1))) key = wsGet s key := by
    intro key hk1 hk2 hk3
    simp only [redeemResult]
    rw [wsGet_put_other _ _ _ _ hk3, wsGet_put_other _ _ _ _ hk2,
      wsGet_put_other _ _ _ _ hk1]
  refine ⟨?_, hjm, hj1, hjN, hjhi, ?_, ?_, ?_, ?_, ?_, hgeneric, ?_⟩
  · simp only [addPatient, readAsset, hmeta, hn, jsAdd_num, hmed,
      jsToString_num, jsToString, hoff, hc, jsLoopCount]
    exact hscan
  · simp only [redeemResult]
    rw [wsGet_put_other _ _ _ _ hAM, wsGet_put_other _ _ _ _ hAP,
      wsGet_put_same]
  · subst hapj
    exact getField_setField_obj afs ("patientID") _
  · simp only [redeemResult]
    rw [wsGet_put_other _ _ _ _ hpm, wsGet_put_same]
  · simp only [redeemResult]
    rw [wsGet_put_same]
  · subst hmv
    exact getField_setField_obj mfs ("patientCtr") _
  · intro k hk1 hk2
    refine hgeneric (apKey medID k) ?_ (Ne.symm (hpk k))
      (Ne.symm (meta_ne_apKey medID (Nat.repr k)))
    intro hEq
    exact absurd (apKey_inj hEq) (by omega)

def c1Meta : JSVal := .obj [(("patientCtr"), .num 0)]

def c1Off : JSVal := .obj [(("medID"), .str "o1"), (("approveCtr"), .num 2)]

def c1Approval : JSVal :=
  .obj [(("approvalID"), .str "T"), (("patientID"), .null)]

def c1Patient : JSVal :=
  .obj [(("approvalID"), .str "T"), (("medID"), .str "o1"),
    (("dailyKeys"), .arr [.str "k1"])]

def c1Store : Store :=
  [(("meta"), c1Meta), (("o1"), c1Off), (("mo1:1"), c1Approval),
    (("mo1:2"), c1Approval)]

def c1Final : Store :=
  redeemResult c1Store ("o1") 2 c1Approval c1Patient
    ("p" ++ ((0 : Int) + 1).repr) c1Meta (.num ((0 : Int) + 1))

theorem addPatient_redeems_most_recent_witness :
    addPatient c1Store c1Patient = .ok c1Final
    ∧ wsGet c1Final (apKey ("o1") 1) = wsGet c1Store (apKey ("o1") 1) := by
  have h := addPatient_redeems_most_recent c1Store c1Patient c1Meta c1Off
    c1Approval ("o1") 0 2 2 [(("patientCtr"), .num 0)]
    [(("approvalID"), .str "T"), (("patientID"), .null)]
    rfl rfl rfl rfl rfl rfl (by decide) rfl rfl rfl rfl c1Final rfl
  exact ⟨h.1, h.2.2.2.2.2.2.2.2.2.2.2 1 (by omega) (by omega)⟩

theorem redeemScan_nomatch {s : Store} {patientObj : JSVal}
    {medID newPKey : String} {currMeta newCtr : JSVal}
    (hmed : JSVal.getField patientObj ("medID") = .str medID) :
    ∀ {N : Nat},
      (∀ k, k < N → (wsGet s (apKey medID (k + 1))).isSome = true) →
      (∀ k, k < N → matchesAt s patientObj medID (k + 1) = false) →
      redeemScan s patientObj newPKey currMeta newCtr N = .ok s := by
  intro N
  induction N with
  | zero => intro _ _; rfl
  | succ n ih =>
      intro dens hnomat
      obtain ⟨v, hv⟩ := Option.isSome_iff_exists.mp (dens n (by omega))
      have hv' := hv
      simp only [apKey] at hv'
      have hcond : approvalMatches patientObj v = false := by
        have hnm := hnomat n (by omega)
        simp only [matchesAt, hv] at hnm
        exact hnm
      simp only [approvalMatches] at hcond
      simp only [redeemScan, hmed, jsToString, readAsset, hv', hcond,
        Bool.false_eq_true, if_false]
      exact ih (fun k hk => dens k (by omega))
        (fun k hk => hnomat k (by omega))

/-- C5.  When Meta and the officer record exist, every approval
1..approvalCounter exists, and none of them is simultaneously
unredeemed and carrying the submitted token, redeemApproval is a silent
no-op: it returns successfully with the store unchanged — Meta
untouched, no Patient created, no Approval modified, no error. -/
theorem addPatient_silent_noop
    (s : Store) (patientObj mval off : JSVal) (medID : String) (c : Int)
    (hmed : JSVal.getField patientObj ("medID") = .str medID)
    (hmeta : wsGet s ("meta") = some mval)
    (hoff : wsGet s medID = some off)
    (hc : JSVal.getField off ("approveCtr") = .num c)
    (dens : ∀ k, k < c.toNat → (wsGet s (apKey medID (k + 1))).isSome = true)
    (hnomat : ∀ k, k < c.toNat →
      matchesAt s patientObj medID (k + 1) = false) :
    addPatient s patientObj = .ok s := by
  simp only [addPatient, readAsset, hmeta, hmed, jsToString, hoff, hc,
    jsLoopCount]
  exact redeemScan_nomatch hmed dens hnomat

def c5Meta : JSVal := .obj [(("patientCtr"), .num 0)]

def c5Off : JSVal := .obj [(("medID"), .str "o2"), (("approveCtr"), .num 1)]

def c5Approval : JSVal :=
  .obj [(("approvalID"), .str "X"), (("patientID"), .null)]

def c5Store : Store :=
  [(("meta"), c5Meta), (("o2"), c5Off), (("mo2:1"), c5Approval)]

def c5Patient : JSVal :=
  .obj [(("approvalID"), .str "Y"), (("medID"), .str "o2"),
    (("dailyKeys"), .arr [.str "k9"])]

theorem addPatient_silent_noop_witness :
    addPatient c5Store c5Patient = .ok c5Store :=
  addPatient_silent_noop c5Store c5Patient c5Meta c5Off ("o2") 1
    rfl rfl rfl rfl (by decide) (by decide)

def c2Off : JSVal := .obj [(("medID"), .str "m1"), (("approveCtr"), .num 0)]

def c2Store : Store := [(("m1"), c2Off)]

def c2After : Store :=
  [(("m1"), c2Off),
    (("mm1:1"), .obj [(("approvalID"), .str "A1"), (("patientID"), .null)])]

/-- C2 (code bug).  Evaluating issueApprovalToken at a registered
officer whose stored approveCtr is 0: the first call succeeds and
creates the approval, but the stored officer record still carries
approveCtr = 0 (the claim requires 1 after N = 1 calls), and a second
call for the same officer throws AlreadyExists instead of creating
approval number 2 — the source never persists the incremented
counter. -/
theorem issue_does_not_persist_counter :
    addPatientApprovalRecord c2Store ("m1") ("A1") = .ok c2After
    ∧ wsGet c2After ("m1") = some c2Off
    ∧ JSVal.getField c2Off ("approveCtr") = .num 0
    ∧ addPatientApprovalRecord c2After ("m1") ("A2") =
        .error (.alreadyExists ("mm1:1")) :=
  ⟨rfl, rfl, rfl, rfl⟩

/-- C10.  For every officer record whose stored approveCtr is some
number c, once one issueApprovalToken call has committed, the officer
record is unchanged (the counter was never persisted), so every
subsequent issueApprovalToken call for that officer derives the same
approval key "m"+medID+":"+(c+1) and fails with AlreadyExists when
creating it. -/
theorem issue_second_call_always_already_exists
    (s : Store) (off : JSVal) (medID t1 : String) (c : Int) (s1 : Store)
    (hoff : wsGet s medID = some off)
    (hc : JSVal.getField off ("approveCtr") = .num c)
    (h1 : addPatientApprovalRecord s medID t1 = .ok s1) :
    wsGet s1 medID = some off
    ∧ ∀ t2 : String, addPatientApprovalRecord s1 medID t2 =
        .error (.alreadyExists ("m" ++ medID ++ ":" ++ (c + 1).repr)) := by
  simp only [addPatientApprovalRecord, assetExists, hoff,
    Option.isSome_some, Bool.not_true, Bool.false_eq_true, if_false,
    readAsset, hc, jsAdd_num, jsToString_num, createAsset] at h1
  by_cases hK :
      (wsGet s ("m" ++ medID ++ ":" ++ (c + 1).repr)).isSome = true
  · rw [if_pos hK] at h1
    simp at h1
  · rw [if_neg hK] at h1
    obtain rfl : wsPut s ("m" ++ medID ++ ":" ++ (c + 1).repr)
        (.obj [(("approvalID"), .str t1), (("patientID"), .null)]) = s1 :=
      Except.ok.inj h1
    have hoff1 : wsGet (wsPut s ("m" ++ medID ++ ":" ++ (c + 1).repr)
        (.obj [(("approvalID"), .str t1), (("patientID"), .null)])) medID =
          some off := by
      rw [wsGet_put_other _ _ _ _
        (Ne.symm (officer_ne_apKey medID ((c + 1).repr)))]
      exact hoff
    refine ⟨hoff1, fun t2 => ?_⟩
    simp only [addPatientApprovalRecord, assetExists, hoff1,
      Option.isSome_some, Bool.not_true, Bool.false_eq_true, if_false,
      readAsset, hc, jsAdd_num, jsToString_num, createAsset,
      wsGet_put_same, if_true]

def c10Off : JSVal :=
  .obj [(("medID"), .str "m3"), (("approveCtr"), .num 0)]

def c10Store : Store := [(("m3"), c10Off)]

def c10After : Store :=
  [(("m3"), c10Off),
    (("mm3:1"), .obj [(("approvalID"), .str "A1"), (("patientID"), .null)])]

theorem issue_second_call_always_already_exists_witness :
    addPatientApprovalRecord c10After ("m3") ("B2") =
      .error (.alreadyExists ("m" ++ "m3" ++ ":" ++ ((0 : Int) + 1).repr))
    ∧ wsGet c10After ("m3") = some c10Off := by
  have h := issue_second_call_always_already_exists c10Store c10Off
    ("m3") ("A1") 0 c10After rfl rfl rfl
  exact ⟨h.2 ("B2"), h.1⟩

def c3Off : JSVal :=
  .obj [(("medID"), .str "m123"), (("approveCtr"), .num 1)]

def c3Approval : JSVal :=
  .obj [(("approvalID"), .str "T"), (("patientID"), .null)]

def c3Store : Store := [(("m123"), c3Off), (("m123:1"), c3Approval)]

/-- C3 (code bug).  validateToken can never return success: the loop
bound reads the field approvalCtr, but officer records carry the field
approveCtr, so the bound is undefined and the scan runs zero times.
At this input the officer exists at key "m"+"123" with counter 1, and
approval number 1 is unredeemed with the checked token — the claim
requires success — yet the call throws InvalidToken.  The officer
field read the source performs evaluates to undefined (last
conjunct). -/
theorem validatePatient_never_succeeds :
    wsGet c3Store ("m" ++ "123") = some c3Off
    ∧ JSVal.getField c3Off ("approveCtr") = .num 1
    ∧ wsGet c3Store ("m" ++ "123" ++ ":" ++ Nat.repr 1) = some c3Approval
    ∧ jsEq (JSVal.getField c3Approval ("approvalID")) (.str ("T")) = true
    ∧ jsEq (JSVal.getField c3Approval ("patientID")) .null = true
    ∧ validatePatient c3Store ("123") ("T") =
        .error (.invalidApprovalID ("T"))
    ∧ JSVal.getField c3Off ("approvalCtr") = .undefined :=
  ⟨rfl, rfl, rfl, rfl, rfl, rfl, rfl⟩

def c4Patient : JSVal :=
  .obj [(("medID"), .str "m1"), (("approvalID"), .str "T"),
    (("dailyKeys"), .arr [.obj [(("hexkey"), .str "ab12"),
      (("i"), .num 100)]])]

def c4Meta : JSVal := .obj [(("patientCtr"), .num 1)]

def c4Store : Store := [(("meta"), c4Meta), (("p1"), c4Patient)]

/-- C4 (code bug).  aggregateKeys always returns the empty sequence:
its loop bound reads num_positives from Meta, but the Meta counter
field is patientCtr (the field addPatient reads and writes), so the
bound is undefined and the loop runs zero times.  At this input Meta
records one patient and the record at "p"+1 holds daily keys — the
claim requires them in the result — yet the call returns the empty
list.  The Meta field read the source performs evaluates to undefined
(last conjunct). -/
theorem getKeys_always_empty :
    wsGet c4Store ("meta") = some c4Meta
    ∧ JSVal.getField c4Meta ("patientCtr") = .num 1
    ∧ wsGet c4Store ("p" ++ Nat.repr 1) = some c4Patient
    ∧ JSVal.getField c4Patient ("dailyKeys") =
        .arr [.obj [(("hexkey"), .str "ab12"), (("i"), .num 100)]]
    ∧ getKeys c4Store = .ok []
    ∧ JSVal.getField c4Meta ("num_positives") = .undefined :=
  ⟨rfl, rfl, rfl, rfl, rfl, rfl⟩

def c6Off : JSVal := .obj [(("medID"), .str "123"), (("approveCtr"), .num 0)]

/-- C6 (counterexample).  Registering an officer whose medID is "123"
stores the record at the raw key "123", not at "m"+"123"; fetching the
profile for the same officerID reads "m"+"123" and throws NotFound —
so the operations do not all address the officer record at the single
key "m"+officerID. -/
theorem officer_key_mismatch_counterexample :
    addHealthOfficer ([] : Store) c6Off = .ok [(("123"), c6Off)]
    ∧ wsGet [(("123"), c6Off)] ("m" ++ "123") = none
    ∧ wsGet [(("123"), c6Off)] ("123") = some c6Off
    ∧ getMedProfile [(("123"), c6Off)] ("123") =
        .error (.doesNotExist ("m123")) :=
  ⟨rfl, rfl, rfl, rfl⟩

/-- C6 (amended).  The officer key usage the code actually implements:
registerOfficer (create and no-op check), issueApprovalToken and
redeemApproval address the officer record at the raw caller-supplied
medID, while validateToken and fetchOfficerProfile read it from
"m"+medID; the two groups agree only when the medID handed to the
former already carries the "m" prefix. -/
theorem officer_key_usage
    (s : Store) (medObj patientObj mval : JSVal)
    (medID checkID tok : String)
    (hmed : JSVal.getField medObj ("medID") = .str medID)
    (hpmed : JSVal.getField patientObj ("medID") = .str medID) :
    (wsGet s medID = none →
      addHealthOfficer s medObj = .ok (wsPut s medID medObj))
    ∧ (∀ v, wsGet s medID = some v → addHealthOfficer s medObj = .ok s)
    ∧ (wsGet s medID = none → addPatientApprovalRecord s medID tok = .ok s)
    ∧ (wsGet s ("meta") = some mval → wsGet s medID = none →
        addPatient s patientObj = .error (.doesNotExist medID))
    ∧ (wsGet s ("m" ++ medID) = none →
        validatePatient s medID checkID =
          .error (.doesNotExist ("m" ++ medID)))
    ∧ (wsGet s ("m" ++ medID) = none →
        getMedProfile s medID = .error (.doesNotExist ("m" ++ medID))) := by
  refine ⟨?_, ?_, ?_, ?_, ?_, ?_⟩
  · intro h
    simp only [addHealthOfficer, hmed, jsToString, assetExists, h,
      Option.isSome_none, Bool.false_eq_true, if_false, createAsset]
  · intro v hv
    simp only [addHealthOfficer, hmed, jsToString, assetExists, hv,
      Option.isSome_some, if_true]
  · intro h
    simp only [addPatientApprovalRecord, assetExists, h,
      Option.isSome_none, Bool.not_false, if_true]
  · intro hm h
    simp only [addPatient, readAsset, hm, hpmed, jsToString, h]
  · intro h
    simp only [validatePatient, readAsset, h]
  · intro h
    simp only [getMedProfile, readAsset, h]

def c6wOff : JSVal := .obj [(("medID"), .str "77"), (("approveCtr"), .num 0)]

theorem officer_key_usage_witness :
    addHealthOfficer ([] : Store) c6wOff =
      .ok (wsPut ([] : Store) ("77") c6wOff)
    ∧ getMedProfile ([] : Store) ("77") =
        .error (.doesNotExist ("m" ++ "77")) := by
  have h := officer_key_usage ([] : Store) c6wOff c6wOff .null
    ("77") ("c") ("t") rfl rfl
  exact ⟨h.1 rfl, h.2.2.2.2.2 rfl⟩

def c7Off : JSVal := .obj [(("medID"), .str "m9"), (("approveCtr"), .num 5)]

/-- C7 (counterexample).  A first registration does not force
approvalCounter to 0: the payload is stored verbatim, so registering
with a payload carrying approveCtr = 5 creates a record whose counter
is 5, not 0. -/
theorem registerOfficer_copies_payload_counter :
    addHealthOfficer ([] : Store) c7Off = .ok [(("m9"), c7Off)]
    ∧ wsGet [(("m9"), c7Off)] ("m9") = some c7Off
    ∧ JSVal.getField c7Off ("approveCtr") = .num 5
    ∧ ¬ JSVal.getField c7Off ("approveCtr") = .num 0 := by
  refine ⟨rfl, rfl, rfl, ?_⟩
  intro h
  have h' : JSVal.num 5 = JSVal.num 0 := h
  have := JSVal.num.inj h'
  omega

/-- C7 (amended).  Registration is idempotent: a first call for an
absent officer stores the submitted payload verbatim at the officer
key, and a second call with any payload naming the same officer leaves
the store — in particular that single record — entirely unchanged.
(The counter of the created record is whatever the payload carries,
not 0.) -/
theorem registerOfficer_idempotent
    (s : Store) (p1 p2 : JSVal) (medID : String)
    (h1 : jsToString (JSVal.getField p1 ("medID")) = medID)
    (h2 : jsToString (JSVal.getField p2 ("medID")) = medID)
    (habs : wsGet s medID = none) :
    addHealthOfficer s p1 = .ok (wsPut s medID p1)
    ∧ wsGet (wsPut s medID p1) medID = some p1
    ∧ addHealthOfficer (wsPut s medID p1) p2 = .ok (wsPut s medID p1) := by
  refine ⟨?_, wsGet_put_same s medID p1, ?_⟩
  · simp only [addHealthOfficer, h1, assetExists, habs,
      Option.isSome_none, Bool.false_eq_true, if_false, createAsset]
  · simp only [addHealthOfficer, h2, assetExists, wsGet_put_same,
      Option.isSome_some, if_true]

def c7p1 : JSVal := .obj [(("medID"), .str "m7"), (("approveCtr"), .num 0)]

def c7p2 : JSVal := .obj [(("medID"), .str "m7"), (("approveCtr"), .num 9)]

theorem registerOfficer_idempotent_witness :
    addHealthOfficer ([] : Store) c7p1 =
      .ok (wsPut ([] : Store) ("m7") c7p1)
    ∧ addHealthOfficer (wsPut ([] : Store) ("m7") c7p1) c7p2 =
        .ok (wsPut ([] : Store) ("m7") c7p1) := by
  have h := registerOfficer_idempotent ([] : Store) c7p1 c7p2 ("m7")
    rfl rfl rfl
  exact ⟨h.1, h.2.2⟩

/-- C8 (counterexample).  Validating against a missing officer throws
the storage NotFound error from readAsset ("The asset m123 does not
exist"), not the dedicated InvalidOfficer error ("MedicalID 123 is
invalid") the claim names; the two error kinds are distinct. -/
theorem validate_missing_officer_counterexample :
    validatePatient ([] : Store) ("123") ("T") =
      .error (.doesNotExist ("m123"))
    ∧ CCError.doesNotExist ("m123") ≠ CCError.invalidMedicalID ("123") :=
  ⟨rfl, by decide⟩

/-- C8 (amended).  For every validateToken call where no officer
record exists at "m"+officerID, the call fails — but with the storage
NotFound error naming that key; the InvalidOfficer branch of the
source is unreachable because readAsset throws first. -/
theorem validate_missing_officer_not_found
    (s : Store) (medID checkID : String)
    (h : wsGet s ("m" ++ medID) = none) :
    validatePatient s medID checkID =
      .error (.doesNotExist ("m" ++ medID)) := by
  simp only [validatePatient, readAsset, h]

theorem validate_missing_officer_not_found_witness :
    validatePatient ([] : Store) ("9") ("T") =
      .error (.doesNotExist ("m" ++ "9")) :=
  validate_missing_officer_not_found ([] : Store) ("9") ("T") rfl

/-- C9 (counterexample).  Fetching a missing officer profile does not
return an empty result: it throws the storage NotFound error (the
null-returning else branch of the source is unreachable because
readAsset throws first). -/
theorem fetch_missing_officer_counterexample :
    getMedProfile ([] : Store) ("123") = .error (.doesNotExist ("m123"))
    ∧ getMedProfile ([] : Store) ("123") ≠
        .ok (.null : JSVal) := by
  refine ⟨rfl, ?_⟩
  intro h
  have h' : (Except.error (CCError.doesNotExist ("m123")) :
      Except CCError JSVal) = .ok (.null : JSVal) := h
  exact Except.noConfusion h'

/-- C9 (amended).  fetchOfficerProfile returns the stored officer
record whenever one is present at "m"+officerID (stored values are
JSON, hence never the undefined excluded by the hypothesis), and fails
with the storage NotFound error when it is absent; the operation
performs no writes (its result carries no store). -/
theorem getMedProfile_spec (s : Store) (medID : String) :
    (∀ v, wsGet s ("m" ++ medID) = some v → v ≠ .undefined →
      getMedProfile s medID = .ok v)
    ∧ (wsGet s ("m" ++ medID) = none →
      getMedProfile s medID = .error (.doesNotExist ("m" ++ medID))) := by
  constructor
  · intro v hv hvu
    simp only [getMedProfile, readAsset, hv]
    cases v with
    | undefined => exact absurd rfl hvu
    | null => simp [jsEq]
    | nan => simp [jsEq]
    | num a => simp [jsEq]
    | str a => simp [jsEq]
    | arr xs => simp [jsEq]
    | obj fs => simp [jsEq]
  · intro h
    simp only [getMedProfile, readAsset, h]

def c9Off : JSVal := .obj [(("medID"), .str "m5"), (("approveCtr"), .num 0)]

theorem getMedProfile_spec_witness :
    getMedProfile [(("m5"), c9Off)] ("5") = .ok c9Off := by
  have h := getMedProfile_spec [(("m5"), c9Off)] ("5")
  exact h.1 c9Off rfl (fun hx => JSVal.noConfusion hx)

end CovidBloc
